import Mathlib

/-!
# Supporte-Agents — Scope Intelligence pipeline and analysis viewer

Verification development for the batch clustering-and-aggregation pipeline
("Scope Intelligence") and for the analysis viewer page of the frontend.

The repository ships the React frontend (`src/frontend/...`) together with the
design documents of the Python backend (`app/services/cluster_engine.py`,
`app/services/vectorizer.py`, `scripts/run_pipeline.py`, ...).  The backend
sources themselves are not part of the tree, so the pipeline is modelled here
from the specification; the viewer (`ScopeIntelPage.tsx`) is embedded from its
source.
-/

namespace Pipeline

/-- A fixed-length numeric vector produced by the embedding capability. -/
abbrev Vec := List Int

/-- A content fingerprint (stable hash of the cleaned text). -/
abbrev Fp := Nat

/-- Modelled from the spec: one support record (§3 Ticket) as fetched by
`fetch_tickets` — identifier, requester, affected service/area, status,
opening time (month bucket and day-of-week bucket) and raw title plus
description.  Immutable input of the pipeline. -/
structure Ticket where
  id : Nat
  sistema : String
  servico : String
  solicitante : String
  status : String
  mes : Nat
  dia_semana : Nat
  titulo : String
  descricao : String
deriving Repr, DecidableEq

/-- Whitespace characters collapsed by the normalizer. -/
def isWs (c : Char) : Bool :=
  c = ' ' || c = '\n' || c = '\t' || c = '\r'

/-- Modelled from the spec: strips markup tags (§4.1 "markup tags") — every
character between an opening `<` and the matching `>` is dropped
(`data_fetcher` cleaning step of the missing backend). -/
def stripTagsAux : List Char → Bool → List Char
  | [], _ => []
  | c :: cs, inTag =>
    if c = '<' then stripTagsAux cs true
    else if c = '>' then stripTagsAux cs false
    else if inTag then stripTagsAux cs true
    else c :: stripTagsAux cs false

/-- Splits a character list into maximal whitespace-free words. -/
def wordsAux : List Char → List Char → List (List Char)
  | [], acc => if acc.isEmpty then [] else [acc.reverse]
  | c :: cs, acc =>
    if isWs c then
      if acc.isEmpty then wordsAux cs [] else acc.reverse :: wordsAux cs []
    else
      wordsAux cs (c :: acc)

/-- Rejoins words with single blanks between them. -/
def joinWords : List (List Char) → List Char
  | [] => []
  | [w] => w
  | w :: ws => w ++ ' ' :: joinWords ws

/-- Modelled from the spec: §4.1 "collapses whitespace" — runs of whitespace
become a single blank and outer whitespace is trimmed. -/
def collapseWs (s : String) : String :=
  ⟨joinWords (wordsAux s.data [])⟩

/-- Modelled from the spec: §4.1 — concatenates system + service + title +
description in a fixed field order, so fingerprints are stable across runs. -/
def textoConcatenado (t : Ticket) : String :=
  t.sistema ++ " " ++ t.servico ++ " " ++ t.titulo ++ " " ++ t.descricao

/-- Modelled from the spec: the cleaned comparison string of a ticket
(§4.1 Record Normalizer): markup stripped, whitespace collapsed. -/
def textoLimpo (t : Ticket) : String :=
  collapseWs ⟨stripTagsAux (textoConcatenado t).data false⟩

/-- Rolling-hash accumulator over the characters of the cleaned text,
truncated to 64 bits at every step. -/
def hashChars : List Char → Nat → Nat
  | [], h => h
  | c :: cs, h => hashChars cs ((h * 131 + c.toNat) % 2 ^ 64)

/-- Modelled from the spec: §4.1 and §3 — the content fingerprint is a stable
hash of the cleaned string (a pure function of the text, hence identical
cleaned text always yields the identical fingerprint). -/
def fingerprint (s : String) : Fp :=
  hashChars s.data 5381

/-- Fingerprint of a ticket: hash of its cleaned text. -/
def ticketFp (t : Ticket) : Fp :=
  fingerprint (textoLimpo t)

/-! ## Embedding cache (§4.2, §6) -/

/-- Modelled from the spec: the persistent cache store (§6), a key-value map
from content fingerprint to stored vector (`get`/`put` contract). -/
abbrev Store := List (Fp × Vec)

/-- The `get(fingerprint) -> vector | absent` side of the store contract. -/
def lookupFp : Store → Fp → Option Vec
  | [], _ => none
  | (k, v) :: rest, fp => if k = fp then some v else lookupFp rest fp

/-- Boolean key-distinctness of the store: at most one entry per
fingerprint (§3 EmbeddingEntry, write-once read-many). -/
def keysNodupB : Store → Bool
  | [] => true
  | (k, _) :: rest => !(rest.any (fun e => e.1 = k)) && keysNodupB rest

/-- Result of resolving one cleaned text against the cache: the vector (when
one could be obtained), the updated store, and how many external embedding
calls were made. -/
structure ResolveStep where
  vec : Option Vec
  store : Store
  calls : Nat
deriving Repr, DecidableEq

/-- Modelled from the spec: `resolve(fingerprint) -> vector` (§4.2) — check
the persistent store first (hit: reuse the stored vector, zero external
calls); on a miss call the embedding capability `cap`, store the result keyed
by fingerprint, and return it; a capability failure leaves the store
unchanged after the one failed call. -/
def resolveFingerprint (cap : String → Option Vec) (st : Store) (texto : String) :
    ResolveStep :=
  let k := fingerprint texto
  match lookupFp st k with
  | some v => ⟨some v, st, 0⟩
  | none =>
    match cap texto with
    | some v => ⟨some v, (k, v) :: st, 1⟩
    | none => ⟨none, st, 1⟩

/-- A ticket paired with its resolved vector (`none` when the ticket could
not be vectorized: empty cleaned text or embedding failure). -/
abbrev Row := Ticket × Option Vec

/-- Modelled from the spec: batched resolution of the whole window (§4.2),
threading the store through the tickets; a ticket whose cleaned text is empty
is excluded from vectorization (§4.1 failure note) and carried with no
vector.  Returns the rows, the final store and the total number of external
embedding calls. -/
def resolveTickets (cap : String → Option Vec) (st : Store) :
    List Ticket → List Row × Store × Nat
  | [] => ([], st, 0)
  | t :: ts =>
    if textoLimpo t = "" then
      let r := resolveTickets cap st ts
      ((t, none) :: r.1, r.2.1, r.2.2)
    else
      let s := resolveFingerprint cap st (textoLimpo t)
      let r := resolveTickets cap s.store ts
      ((t, s.vec) :: r.1, r.2.1, r.2.2 + s.calls)

/-! ## Micro-cluster engine (§4.3) -/

/-- The vectors that were actually resolved, in row order. -/
def rowsVecs (rows : List Row) : List Vec :=
  rows.filterMap (fun r => r.2)

/-- How many rows carry exactly the vector `v`. -/
def vecCount (rows : List Row) (v : Vec) : Nat :=
  rows.countP (fun r => r.2 = some v)

/-- Modelled from the spec: the dense regions of the vector space found by
the density-based engine (§4.3, `cluster_engine.py` missing from the tree).
Density is modelled as exact coincidence of vectors; a region is promoted to
a micro-cluster only when it reaches the minimum-group-size threshold.  The
surviving vectors are listed in first-occurrence order, which makes the
assignment deterministic (§4.3 determinism requirement). -/
def denseVecs (minSize : Nat) (rows : List Row) : List Vec :=
  ((rowsVecs rows).dedup).filter (fun v => minSize ≤ vecCount rows v)

/-- Whether a row belongs to some dense region (is assigned a cluster index
rather than the noise label). -/
def isDense (minSize : Nat) (rows : List Row) (r : Row) : Bool :=
  match r.2 with
  | some v => decide (v ∈ denseVecs minSize rows)
  | none => false

/-- Modelled from the spec: the label assigned to a row (§4.3) — the index of
its dense region, or the single reserved noise label `-1` for rows with no
resolvable vector or with a sparse vector. -/
def rowLabel (minSize : Nat) (rows : List Row) (r : Row) : Int :=
  match r.2 with
  | none => -1
  | some v =>
    match (denseVecs minSize rows).indexOf? v with
    | some i => (i : Int)
    | none => -1

/-! ## Hierarchy builder and aggregator (§4.4, §4.5) -/

/-- A micro-cluster before labeling: its cluster index, its centroid (all
member vectors coincide, so the centroid is that shared vector) and the
member tickets. -/
structure Leaf where
  label : Int
  centroid : Vec
  members : List Ticket
deriving Repr, DecidableEq

/-- Modelled from the spec: the Metrics block of a ClusterNode (§3, §4.5) —
volume plus exact breakdowns by service, requester and status, the
month-bucketed timeline and the day-of-week counts, all computed from the
raw ticket fields, never estimated. -/
structure Metricas where
  volume : Nat
  top_servicos : List (String × Nat)
  top_solicitantes : List (String × Nat)
  top_status : List (String × Nat)
  timeline : List (Nat × Nat)
  sazonalidade : List (Nat × Nat)
deriving Repr, DecidableEq

/-- Exact value counts of a string field over the member tickets. -/
def countByStr (f : Ticket → String) (ms : List Ticket) : List (String × Nat) :=
  ((ms.map f).dedup).map (fun s => (s, ms.countP (fun t => f t = s)))

/-- Exact value counts of a numeric bucket over the member tickets. -/
def countByNat (f : Ticket → Nat) (ms : List Ticket) : List (Nat × Nat) :=
  ((ms.map f).dedup).map (fun n => (n, ms.countP (fun t => f t = n)))

/-- The count a breakdown list assigns to a key (zero when the key is
absent); the semantics under which the Metrics breakdowns are compared. -/
def lookupCount {β : Type} [DecidableEq β] (l : List (β × Nat)) (s : β) : Nat :=
  ((l.filter (fun p => p.1 = s)).map (fun p => p.2)).sum

/-- Modelled from the spec: §4.5 Aggregator — all metrics are computed
exactly from the raw ticket fields of the member set. -/
def computeMetricas (ms : List Ticket) : Metricas :=
  { volume := ms.length
    top_servicos := countByStr (fun t => t.servico) ms
    top_solicitantes := countByStr (fun t => t.solicitante) ms
    top_status := countByStr (fun t => t.status) ms
    timeline := countByNat (fun t => t.mes) ms
    sazonalidade := countByNat (fun t => t.dia_semana) ms }

/-- Modelled from the spec: §9 — the labeling capability returns a tagged
variant: a structured label, the sentinel "inconclusive", or a failure. -/
inductive LabelResult where
  | labeled : String → String → List String → LabelResult
  | inconclusive : LabelResult
  | failed : String → LabelResult

/-- Modelled from the spec: §4.5 — the title/description produced from a
bounded sample (first five cleaned texts) of the member tickets; a failure
or an inconclusive answer yields a placeholder label, never a fatal error. -/
def labelOf (summarize : List String → LabelResult) (ms : List Ticket) :
    String × String :=
  match summarize ((ms.take 5).map textoLimpo) with
  | .labeled t d _ => (t, d)
  | .inconclusive => ("Inconclusivo/Generico", "")
  | .failed _ => ("Sem rotulo", "")

/-- The data carried by one output node: identifier, title, direct member
ticket identifiers (empty for parents) and the exact metrics. -/
structure NodeData where
  cluster_id : Int
  titulo : String
  ids_chamados : List Nat
  metricas : Metricas
deriving Repr, DecidableEq

/-- Modelled from the spec: §9 — the output tree is constrained to exactly
two levels, so a top node is either a leaf or a parent of leaves. -/
inductive TopNode where
  | leafN : NodeData → TopNode
  | parentN : NodeData → List NodeData → TopNode
deriving Repr, DecidableEq

/-- The own data block of a top node. -/
def TopNode.data : TopNode → NodeData
  | .leafN d => d
  | .parentN d _ => d

/-- The children of a top node (empty for leaves). -/
def TopNode.subs : TopNode → List NodeData
  | .leafN _ => []
  | .parentN _ s => s

/-- Whether a top node is a parent node. -/
def TopNode.isParentN : TopNode → Bool
  | .leafN _ => false
  | .parentN _ _ => true

/-- The volume metric of a top node. -/
def TopNode.volume (n : TopNode) : Nat :=
  n.data.metricas.volume

/-- Output data of one micro-cluster leaf: its label as identifier, its
member ticket identifiers, exact metrics, and the title drawn from the
labeling capability. -/
def leafData (summarize : List String → LabelResult) (lf : Leaf) : NodeData :=
  { cluster_id := lf.label
    titulo := (labelOf summarize lf.members).1
    ids_chamados := lf.members.map (fun t => t.id)
    metricas := computeMetricas lf.members }

/-- Modelled from the spec: §4.3/§4.4 — the micro-clusters (noise excluded),
one per dense vector, indexed in order; the members are exactly the rows
carrying that vector. -/
def microLeaves (minSize : Nat) (rows : List Row) : List Leaf :=
  ((denseVecs minSize rows).enum).map (fun p =>
    { label := (p.1 : Int)
      centroid := p.2
      members := (rows.filter (fun r => r.2 = some p.2)).map (fun r => r.1) })

/-- The key under which a micro-cluster is merged into a macro-group: an
abstract quantization of its centroid.  The spec leaves the exact
distance/linkage open (§9), so the merge function is a configuration knob. -/
def leafKey (macroKey : Vec → Nat) (lf : Leaf) : Nat :=
  macroKey lf.centroid

/-- Modelled from the spec: §4.4 — micro-clusters whose centroids are close
(same macro key) are grouped under one macro-group; groups are listed in
first-occurrence order of their key. -/
def macroGroups (macroKey : Vec → Nat) (leaves : List Leaf) : List (List Leaf) :=
  ((leaves.map (leafKey macroKey)).dedup).map
    (fun k => leaves.filter (fun lf => leafKey macroKey lf = k))

/-- Identifier given to a materialized parent node. -/
def parentId (g : List Leaf) : Int :=
  match g with
  | [] => 10000
  | lf :: _ => 10000 + lf.label

/-- Modelled from the spec: §4.4 — a macro-group of size one is flattened
(the single child itself becomes the top-level node); a larger group becomes
a parent node whose children are its micro-clusters, whose metrics are
computed over the union of the member sets, and which holds no direct ticket
identifiers. -/
def topOfGroup (summarize : List String → LabelResult) (g : List Leaf) : TopNode :=
  match g with
  | [lf] => .leafN (leafData summarize lf)
  | _ =>
    .parentN
      { cluster_id := parentId g
        titulo := (labelOf summarize ((g.map (fun lf => lf.members)).flatten)).1
        ids_chamados := []
        metricas := computeMetricas ((g.map (fun lf => lf.members)).flatten) }
      (g.map (leafData summarize))

/-- The clustered top-level nodes (noise node not yet appended). -/
def buildTop (macroKey : Vec → Nat) (summarize : List String → LabelResult)
    (leaves : List Leaf) : List TopNode :=
  (macroGroups macroKey leaves).map (topOfGroup summarize)

/-- The tickets that fell through to the noise bucket: empty text, embedding
failure, or sparse vector. -/
def noiseMembers (minSize : Nat) (rows : List Row) : List Ticket :=
  (rows.filter (fun r => !isDense minSize rows r)).map (fun r => r.1)

/-- Modelled from the spec: §4.4/Etapa 6 — the reserved top-level noise leaf
("Outros / Dispersos") with identifier `-1`, collecting every unassigned
ticket so that the volume accounting closes. -/
def noiseData (minSize : Nat) (rows : List Row) : NodeData :=
  { cluster_id := -1
    titulo := "Outros / Dispersos"
    ids_chamados := (noiseMembers minSize rows).map (fun t => t.id)
    metricas := computeMetricas (noiseMembers minSize rows) }

/-! ## Run assembly and persistence (§3 AnalysisResult, §7) -/

/-- Modelled from the spec: run metadata of the persisted output (§3). -/
structure Metadata where
  sistema : String
  data_analise : Nat
  periodo_dias : Nat
  total_chamados : Nat
  total_grupos : Nat
  ruido : Nat
deriving Repr, DecidableEq

/-- Modelled from the spec: the persisted output of one run (§3) — metadata
plus the top-level list of cluster nodes. -/
structure AnalysisResult where
  metadata : Metadata
  clusters : List TopNode
deriving Repr, DecidableEq

/-- Pipeline configuration: the minimum-group-size threshold and the
centroid merge key (§4.3, §9 open question). -/
structure Config where
  minClusterSize : Nat
  macroKey : Vec → Nat

/-- Modelled from the spec: one full pipeline run (`run_pipeline.py`):
normalize, resolve embeddings through the cache, micro-cluster, build the
hierarchy, aggregate, label, and attach the reserved noise leaf.  Returns
the analysis result, the final cache store and the number of external
embedding calls. -/
def runPipeline (cfg : Config) (cap : String → Option Vec)
    (summarize : List String → LabelResult) (st : Store) (sistema : String)
    (dias : Nat) (nowTs : Nat) (tickets : List Ticket) :
    AnalysisResult × Store × Nat :=
  let r := resolveTickets cap st tickets
  let rows := r.1
  let leaves := microLeaves cfg.minClusterSize rows
  let tops := buildTop cfg.macroKey summarize leaves ++
    [TopNode.leafN (noiseData cfg.minClusterSize rows)]
  (⟨{ sistema := sistema
      data_analise := nowTs
      periodo_dias := dias
      total_chamados := tickets.length
      total_grupos := leaves.length
      ruido := (noiseMembers cfg.minClusterSize rows).length },
    tops⟩, r.2.1, r.2.2)

/-- The direct-member identifier lists of one top node, one list per leaf
of that node (a leaf contributes its own list, a parent the lists of its
children). -/
def nodeIdLists : TopNode → List (List Nat)
  | .leafN d => [d.ids_chamados]
  | .parentN _ subs => subs.map (fun s => s.ids_chamados)

/-- All leaf identifier lists of a result, in tree order. -/
def allIdLists (res : AnalysisResult) : List (List Nat) :=
  (res.clusters.map nodeIdLists).flatten

/-- Every ticket identifier mentioned by some leaf of the result. -/
def allLeafIds (res : AnalysisResult) : List Nat :=
  (allIdLists res).flatten

/-- The sum of the volume metric over the top-level nodes. -/
def volumeSum (res : AnalysisResult) : Nat :=
  (res.clusters.map TopNode.volume).sum

/-- Boolean distinctness of a list of identifiers. -/
def nodupB : List Nat → Bool
  | [] => true
  | x :: xs => !(xs.contains x) && nodupB xs

/-- Modelled from the spec: §7(c) — the consistency gate run before
persisting: the volume sum must match the input ticket count and no ticket
identifier may be assigned to two nodes. -/
def checkConsistency (res : AnalysisResult) : Bool :=
  (volumeSum res == res.metadata.total_chamados) && nodupB (allLeafIds res)

/-- Modelled from the spec: §7(c)/§5 — atomic persistence: a candidate
result replaces the prior one only when the consistency gate passes;
otherwise nothing is persisted and the prior result stays authoritative. -/
def persistStep (prior : Option AnalysisResult) (cand : AnalysisResult) :
    Option AnalysisResult :=
  if checkConsistency cand then some cand else prior

/-- One scheduled run followed by the persistence gate. -/
def runAndPersist (cfg : Config) (cap : String → Option Vec)
    (summarize : List String → LabelResult) (st : Store) (sistema : String)
    (dias : Nat) (nowTs : Nat) (tickets : List Ticket)
    (prior : Option AnalysisResult) : Option AnalysisResult :=
  persistStep prior (runPipeline cfg cap summarize st sistema dias nowTs tickets).1

end Pipeline

namespace Frontend

/-! ## Analysis viewer (`src/frontend/src/pages/ScopeIntelPage.tsx`)

Shallow embedding of the data model and of the stateful logic of the page:
the `TimelineItem`/`Metricas`/`Cluster`/`Metadata`/`AnaliseData` interfaces,
the ticket-detail lazy-loading effect, and the `sortedClusters` computation.
JavaScript numbers holding counts are modelled as `Int`; `Record<string,
number>` objects as association lists. -/

/-- `interface TimelineItem { mes: string; qtd: number }`. -/
structure TimelineItem where
  mes : String
  qtd : Int
deriving Repr, DecidableEq

/-- `interface Metricas` of the viewer: volume, the breakdown records (the
optional ones modelled with `Option`), timeline and weekly seasonality. -/
structure Metricas where
  volume : Int
  top_servicos : List (String × Int)
  top_subareas : Option (List (String × Int))
  top_solicitantes : List (String × Int)
  top_status : Option (List (String × Int))
  timeline : List TimelineItem
  sazonalidade : Option (List (String × Int))
deriving Repr, DecidableEq

/-- `interface Cluster` of the viewer: identifier, title, description,
optional tags, direct ticket identifiers, metrics and optional recursive
sub-clusters. -/
inductive Cluster where
  | mk : Int → String → String → Option (List String) → List String →
      Metricas → Option (List Cluster) → Cluster

/-- The `cluster_id` field. -/
def Cluster.cluster_id : Cluster → Int
  | .mk i _ _ _ _ _ _ => i

/-- The `titulo` field. -/
def Cluster.titulo : Cluster → String
  | .mk _ t _ _ _ _ _ => t

/-- The `descricao` field. -/
def Cluster.descricao : Cluster → String
  | .mk _ _ d _ _ _ _ => d

/-- The optional `tags` field. -/
def Cluster.tags : Cluster → Option (List String)
  | .mk _ _ _ tg _ _ _ => tg

/-- The `ids_chamados` field. -/
def Cluster.ids_chamados : Cluster → List String
  | .mk _ _ _ _ ids _ _ => ids

/-- The `metricas` field. -/
def Cluster.metricas : Cluster → Metricas
  | .mk _ _ _ _ _ m _ => m

/-- The optional `sub_clusters` field. -/
def Cluster.sub_clusters : Cluster → Option (List Cluster)
  | .mk _ _ _ _ _ _ s => s

/-- `interface Metadata` of the viewer. -/
structure Metadata where
  sistema : String
  data_analise : String
  periodo_dias : Int
  total_chamados : Int
  total_grupos : Int
  taxa_ruido : Rat
deriving Repr, DecidableEq

/-- `interface AnaliseData { metadata; clusters }`. -/
structure AnaliseData where
  metadata : Metadata
  clusters : List Cluster

/-- `interface TicketDetail` — one ticket loaded on demand. -/
structure TicketDetail where
  id_chamado : String
  titulo : String
  solicitante : String
  data_abertura : String
  status : String
  descricao_limpa : String
deriving Repr, DecidableEq

/-- The `ticketsCache` state: `{ [cluster_id]: TicketDetail[] }`, an object
keyed by cluster identifier. -/
abbrev TicketsCache := List (Int × List TicketDetail)

/-- Property access `ticketsCache[cluster_id]` (latest binding wins, as for
object-spread updates). -/
def lookupCache : TicketsCache → Int → Option (List TicketDetail)
  | [], _ => none
  | (k, v) :: rest, i => if k = i then some v else lookupCache rest i

/-- The leaf part of the ticket-detail effect (ScopeIntelPage.tsx lines
189–225): cache check, `idsToFetch = ids_chamados?.slice(0, 5) || []`,
empty-list early return, then the batch request; on success the response is
stored in the cache under the cluster identifier, on failure the cache is
left unchanged.  The second component records the request body sent to the
tickets batch endpoint (`none` when no request is made). -/
def fetchLeafTickets (c : Cluster) (cache : TicketsCache)
    (api : List String → Option (List TicketDetail)) :
    TicketsCache × Option (List String) :=
  if (lookupCache cache c.cluster_id).isSome then (cache, none)
  else
    let idsToFetch := c.ids_chamados.take 5
    if idsToFetch.length = 0 then (cache, none)
    else
      match api idsToFetch with
      | some tds => ((c.cluster_id, tds) :: cache, some idsToFetch)
      | none => (cache, some idsToFetch)

/-- The ticket-detail fetch effect (ScopeIntelPage.tsx lines 181–227): no
selected cluster → nothing; a macro node (non-empty `sub_clusters`) →
early return with no request and the cache untouched; otherwise the leaf
fetch logic. -/
def ticketFetchEffect (selected : Option Cluster) (cache : TicketsCache)
    (api : List String → Option (List TicketDetail)) :
    TicketsCache × Option (List String) :=
  match selected with
  | none => (cache, none)
  | some c =>
    match c.sub_clusters with
    | some subs =>
      if 0 < subs.length then (cache, none)
      else fetchLeafTickets c cache api
    | none => fetchLeafTickets c cache api

/-- The comparator of `sortedClusters`: `(a, b) => b.metricas.volume -
a.metricas.volume` orders by volume, largest first. -/
def volGE (a b : Cluster) : Prop :=
  b.metricas.volume ≤ a.metricas.volume

instance : DecidableRel volGE := fun a b =>
  inferInstanceAs (Decidable (b.metricas.volume ≤ a.metricas.volume))

instance : IsTotal Cluster volGE :=
  ⟨fun a b => Int.le_total b.metricas.volume a.metricas.volume⟩

instance : IsTrans Cluster volGE :=
  ⟨fun _ _ _ hab hbc => le_trans hbc hab⟩

/-- `sortedClusters` (ScopeIntelPage.tsx line 278): when an analysis is
loaded, a copy of `data.clusters` sorted by volume in non-increasing order
(the spread `[...data.clusters]` copies before the in-place sort, so the
loaded array itself is never mutated — in this embedding all values are
immutable and the function returns a fresh list); otherwise the empty
list. -/
def sortedClusters (data : Option AnaliseData) : List Cluster :=
  match data with
  | none => []
  | some d => List.insertionSort volGE d.clusters

end Frontend

namespace Pipeline

/-! ## Partition-by-key machinery

Grouping a list into the buckets of a key function (as the micro-cluster
engine and the hierarchy builder both do) permutes the list, provided the
keys are distinct and cover every element. -/

theorem buckets_perm {α β : Type} [DecidableEq β] (f : α → β) :
    ∀ (keys : List β) (l : List α), keys.Nodup → (∀ a ∈ l, f a ∈ keys) →
      ((keys.map (fun k => l.filter (fun a => f a = k))).flatten).Perm l := by
  intro keys
  induction keys with
  | nil =>
    intro l _ hc
    have hl : l = [] := by
      cases l with
      | nil => rfl
      | cons a t => exact absurd (hc a (List.mem_cons_self a t)) (List.not_mem_nil _)
    subst hl
    simp
  | cons k ks ih =>
    intro l hnd hc
    have hkn : k ∉ ks := (List.nodup_cons.mp hnd).1
    have hnd2 : ks.Nodup := (List.nodup_cons.mp hnd).2
    have hmapeq : ks.map (fun k2 => l.filter (fun a => f a = k2)) =
        ks.map (fun k2 =>
          (l.filter (fun a => !(decide (f a = k)))).filter (fun a => f a = k2)) := by
      apply List.map_congr_left
      intro k2 hk2
      rw [List.filter_filter]
      refine (List.filter_congr ?_).symm
      intro a _
      by_cases h : f a = k2
      · have hne : k2 ≠ k := fun hk => hkn (hk ▸ hk2)
        simp [h, hne]
      · simp [h]
    have hcov2 : ∀ a ∈ l.filter (fun a => !(decide (f a = k))), f a ∈ ks := by
      intro a ha
      have hmem := List.mem_filter.mp ha
      have hne : ¬(f a = k) := by simpa using hmem.2
      rcases List.mem_cons.mp (hc a hmem.1) with h | h
      · exact absurd h hne
      · exact h
    have h1 : ((k :: ks).map (fun k2 => l.filter (fun a => f a = k2))).flatten =
        l.filter (fun a => f a = k) ++
          (ks.map (fun k2 => l.filter (fun a => f a = k2))).flatten := by
      simp
    have h2 : ((ks.map (fun k2 => l.filter (fun a => f a = k2))).flatten).Perm
        (l.filter (fun a => !(decide (f a = k)))) := by
      rw [hmapeq]
      exact ih _ hnd2 hcov2
    rw [h1]
    exact (List.Perm.append_left _ h2).trans (List.filter_append_perm _ l)

theorem buckets_length {α β : Type} [DecidableEq β] (f : α → β) (keys : List β)
    (l : List α) (hnd : keys.Nodup) (hc : ∀ a ∈ l, f a ∈ keys) :
    (keys.map (fun k => (l.filter (fun a => f a = k)).length)).sum = l.length := by
  have h := (buckets_perm f keys l hnd hc).length_eq
  rw [List.length_flatten, List.map_map] at h
  simpa [Function.comp] using h

theorem buckets_sum {α β : Type} [DecidableEq β] (f : α → β) (g : α → Nat)
    (keys : List β) (l : List α) (hnd : keys.Nodup) (hc : ∀ a ∈ l, f a ∈ keys) :
    (keys.map (fun k => ((l.filter (fun a => f a = k)).map g).sum)).sum =
      (l.map g).sum := by
  have h := ((buckets_perm f keys l hnd hc).map g).sum_eq
  rw [List.map_flatten, List.map_map, List.sum_flatten, List.map_map] at h
  simpa [Function.comp] using h

/-- Mapping an index-independent function over an enumerated list forgets
the indices. -/
theorem enumFrom_map_indep {α γ : Type} (F : Nat × α → γ)
    (hF : ∀ n m a, F (n, a) = F (m, a)) :
    ∀ (n : Nat) (l : List α), (l.enumFrom n).map F = l.map (fun a => F (0, a)) := by
  intro n l
  induction l generalizing n with
  | nil => rfl
  | cons a t ih =>
    rw [List.enumFrom_cons, List.map_cons, List.map_cons, hF n 0 a, ih]

/-- The `List.enum` version of `enumFrom_map_indep`. -/
theorem enum_map_indep {α γ : Type} (F : Nat × α → γ)
    (hF : ∀ n m a, F (n, a) = F (m, a)) (l : List α) :
    l.enum.map F = l.map (fun a => F (0, a)) := by
  rw [List.enum_eq_enumFrom]
  exact enumFrom_map_indep F hF 0 l

/-- The boolean distinctness test agrees with `List.Nodup`. -/
theorem nodupB_eq_true {l : List Nat} : nodupB l = true ↔ l.Nodup := by
  induction l with
  | nil => simp [nodupB]
  | cons x xs ih =>
    simp [nodupB, List.nodup_cons, ih, List.contains, and_comm]

end Pipeline


namespace Pipeline

/-! ## Cache and resolution lemmas -/

/-- A fingerprint that the lookup misses occurs under no store key. -/
theorem lookupFp_none_no_key {st : Store} {k : Fp} (h : lookupFp st k = none) :
    st.any (fun e => e.1 = k) = false := by
  induction st with
  | nil => rfl
  | cons e rest ih =>
    obtain ⟨k2, v⟩ := e
    by_cases hk : k2 = k
    · simp [lookupFp, hk] at h
    · have hrest : lookupFp rest k = none := by
        simpa [lookupFp, hk] using h
      simp [List.any_cons, hk, ih hrest]

/-- The first component of the resolved rows is the input ticket list. -/
theorem resolveTickets_map_fst (cap : String → Option Vec) (st : Store)
    (ts : List Ticket) : ((resolveTickets cap st ts).1).map (fun r => r.1) = ts := by
  induction ts generalizing st with
  | nil => rfl
  | cons t ts ih =>
    by_cases h : textoLimpo t = ""
    · simp [resolveTickets, h, ih]
    · simp [resolveTickets, h, ih]

/-- As many rows come out of resolution as tickets went in. -/
theorem resolveTickets_length (cap : String → Option Vec) (st : Store)
    (ts : List Ticket) : ((resolveTickets cap st ts).1).length = ts.length := by
  have h := congrArg List.length (resolveTickets_map_fst cap st ts)
  simpa using h

/-! ## Structure of the built hierarchy -/

/-- The top-level nodes of a run: the macro nodes followed by the reserved
noise leaf. -/
theorem runPipeline_clusters (cfg : Config) (cap : String → Option Vec)
    (summarize : List String → LabelResult) (st : Store) (sistema : String)
    (dias nowTs : Nat) (tickets : List Ticket) :
    (runPipeline cfg cap summarize st sistema dias nowTs tickets).1.clusters =
      buildTop cfg.macroKey summarize
          (microLeaves cfg.minClusterSize (resolveTickets cap st tickets).1) ++
        [TopNode.leafN (noiseData cfg.minClusterSize (resolveTickets cap st tickets).1)] :=
  rfl

/-- The volume of a flattened-or-parent node is the total size of the member
sets of its macro-group. -/
theorem volume_topOfGroup (summarize : List String → LabelResult) (g : List Leaf) :
    (topOfGroup summarize g).volume = (g.map (fun lf => lf.members.length)).sum := by
  match g with
  | [] => rfl
  | [lf] => rfl
  | a :: b :: t =>
    show ((((a :: b :: t).map (fun lf => lf.members)).flatten).length) = _
    rw [List.length_flatten, List.map_map]
    rfl

/-- The leaf identifier lists under a top node are those of its macro-group,
whether or not the group was flattened. -/
theorem nodeIdLists_topOfGroup (summarize : List String → LabelResult) (g : List Leaf) :
    nodeIdLists (topOfGroup summarize g) =
      g.map (fun lf => lf.members.map (fun t => t.id)) := by
  match g with
  | [] => rfl
  | [lf] => rfl
  | a :: b :: t =>
    show ((a :: b :: t).map (leafData summarize)).map (fun s => s.ids_chamados) = _
    rw [List.map_map]
    rfl

/-- Projections of the micro-cluster members, indexed by their dense
vector. -/
theorem microLeaves_map_proj {γ : Type} (h : List Ticket → γ) (ms : Nat)
    (rows : List Row) :
    (microLeaves ms rows).map (fun lf => h lf.members) =
      (denseVecs ms rows).map
        (fun v => h ((rows.filter (fun r => r.2 = some v)).map (fun r => r.1))) := by
  unfold microLeaves
  rw [List.map_map]
  refine enum_map_indep _ ?_ (denseVecs ms rows)
  intro n m a
  rfl

/-- The dense vectors are pairwise distinct. -/
theorem denseVecs_nodup (ms : Nat) (rows : List Row) : (denseVecs ms rows).Nodup :=
  List.Nodup.filter _ (List.nodup_dedup _)

/-- Bucketing the dense rows by their exact vector collapses back to the
plain per-vector filters. -/
theorem filter_vec_of_dense (ms : Nat) (rows : List Row) {v : Vec}
    (hv : v ∈ denseVecs ms rows) :
    (rows.filter (isDense ms rows)).filter (fun r => r.2 = some v) =
      rows.filter (fun r => r.2 = some v) := by
  rw [List.filter_filter]
  apply List.filter_congr
  intro r _
  by_cases h : r.2 = some v
  · have hd : isDense ms rows r = true := by
      rw [isDense, h]
      simpa using hv
    simp [h, hd]
  · simp [h]

/-- Counting rows bucketed by dense vector, plus the sparse rest, accounts
for every row exactly once. -/
theorem sum_filter_vec_lengths (ms : Nat) (rows : List Row) :
    ((denseVecs ms rows).map
        (fun v => (rows.filter (fun r => r.2 = some v)).length)).sum +
      (rows.filter (fun r => !isDense ms rows r)).length = rows.length := by
  have hnd : ((denseVecs ms rows).map some).Nodup :=
    (denseVecs_nodup ms rows).map (Option.some_injective Vec)
  have hcov : ∀ r ∈ rows.filter (isDense ms rows), (fun r : Row => r.2) r ∈
      (denseVecs ms rows).map some := by
    intro r hr
    have hmem := List.mem_filter.mp hr
    have h2 := hmem.2
    match hv : r.2 with
    | none =>
      rw [isDense, hv] at h2
      cases h2
    | some v =>
      rw [isDense, hv] at h2
      have hv2 : v ∈ denseVecs ms rows := by simpa using h2
      show r.2 ∈ _
      rw [hv]
      exact List.mem_map_of_mem some hv2
  have hb := buckets_length (fun r : Row => r.2) ((denseVecs ms rows).map some)
    (rows.filter (isDense ms rows)) hnd hcov
  rw [List.map_map] at hb
  have hmap : ((denseVecs ms rows).map
      (fun v => (rows.filter (fun r => r.2 = some v)).length)) =
      ((denseVecs ms rows).map ((fun k => ((rows.filter (isDense ms rows)).filter
        (fun a => a.2 = k)).length) ∘ some)) := by
    apply List.map_congr_left
    intro v hv
    show _ = ((rows.filter (isDense ms rows)).filter (fun r => r.2 = some v)).length
    rw [filter_vec_of_dense ms rows hv]
  rw [hmap, hb]
  have hsplit := (List.filter_append_perm (isDense ms rows) rows).length_eq
  rw [List.length_append] at hsplit
  exact hsplit

/-- Every macro-group key covers its leaves, so bucketing by macro key sums
member counts without loss: the volumes of the built top nodes add up to the
total membership of the micro-clusters. -/
theorem volumeSum_buildTop (macroKey : Vec → Nat)
    (summarize : List String → LabelResult) (leaves : List Leaf) :
    ((buildTop macroKey summarize leaves).map TopNode.volume).sum =
      (leaves.map (fun lf => lf.members.length)).sum := by
  unfold buildTop macroGroups
  rw [List.map_map, List.map_map]
  have hcongr : ∀ k ∈ (leaves.map (leafKey macroKey)).dedup,
      ((TopNode.volume ∘ topOfGroup summarize) ∘
        (fun k => leaves.filter (fun lf => leafKey macroKey lf = k))) k =
      ((leaves.filter (fun lf => leafKey macroKey lf = k)).map
        (fun lf => lf.members.length)).sum :=
    fun k _ => volume_topOfGroup summarize _
  rw [List.map_congr_left hcongr]
  exact buckets_sum (leafKey macroKey) (fun lf => lf.members.length) _ leaves
    (List.nodup_dedup _) (fun lf hlf => List.mem_dedup.mpr (List.mem_map_of_mem _ hlf))

/-- The micro-cluster member counts are the per-dense-vector row counts. -/
theorem microLeaves_lengths (ms : Nat) (rows : List Row) :
    ((microLeaves ms rows).map (fun lf => lf.members.length)).sum =
      ((denseVecs ms rows).map
        (fun v => (rows.filter (fun r => r.2 = some v)).length)).sum := by
  have h := microLeaves_map_proj (fun l => l.length) ms rows
  rw [h]
  congr 1
  apply List.map_congr_left
  intro v _
  exact List.length_map _ _

/-- Modelled from the spec, proved of the model: the 100%-accounting
invariant — the volumes of all top-level nodes of a run, noise leaf
included, add up to the number of input tickets. -/
theorem volumeSum_run (cfg : Config) (cap : String → Option Vec)
    (summarize : List String → LabelResult) (st : Store) (sistema : String)
    (dias nowTs : Nat) (tickets : List Ticket) :
    volumeSum (runPipeline cfg cap summarize st sistema dias nowTs tickets).1 =
      tickets.length := by
  rw [volumeSum, runPipeline_clusters, List.map_append, List.sum_append]
  rw [volumeSum_buildTop, microLeaves_lengths]
  have hnoise : ([TopNode.leafN
      (noiseData cfg.minClusterSize (resolveTickets cap st tickets).1)].map
        TopNode.volume).sum =
      ((resolveTickets cap st tickets).1.filter
        (fun r => !isDense cfg.minClusterSize (resolveTickets cap st tickets).1 r)).length := by
    show (noiseData cfg.minClusterSize (resolveTickets cap st tickets).1).metricas.volume + 0 = _
    show (noiseMembers cfg.minClusterSize (resolveTickets cap st tickets).1).length + 0 = _
    rw [noiseMembers, List.length_map, Nat.add_zero]
  rw [hnoise, sum_filter_vec_lengths, resolveTickets_length]

/-- The leaf identifier lists of a run are, up to permutation, those of the
micro-clusters followed by the noise list. -/
theorem allIdLists_perm (cfg : Config) (cap : String → Option Vec)
    (summarize : List String → LabelResult) (st : Store) (sistema : String)
    (dias nowTs : Nat) (tickets : List Ticket) :
    (allIdLists (runPipeline cfg cap summarize st sistema dias nowTs tickets).1).Perm
      (((microLeaves cfg.minClusterSize (resolveTickets cap st tickets).1).map
          (fun lf => lf.members.map (fun t => t.id))) ++
        [(noiseData cfg.minClusterSize (resolveTickets cap st tickets).1).ids_chamados]) := by
  rw [allIdLists, runPipeline_clusters, List.map_append, List.flatten_append]
  apply List.Perm.append_right
  rw [buildTop, List.map_map]
  have hcongr : ∀ g ∈ macroGroups cfg.macroKey
      (microLeaves cfg.minClusterSize (resolveTickets cap st tickets).1),
      (nodeIdLists ∘ topOfGroup summarize) g =
        g.map (fun lf => lf.members.map (fun t => t.id)) :=
    fun g _ => nodeIdLists_topOfGroup summarize g
  rw [List.map_congr_left hcongr, ← List.map_flatten]
  apply List.Perm.map
  rw [macroGroups]
  exact buckets_perm (leafKey cfg.macroKey) _ _ (List.nodup_dedup _)
    (fun lf hlf => List.mem_dedup.mpr (List.mem_map_of_mem _ hlf))

/-- The row identifiers of a run repeat the input ticket identifiers. -/
theorem rows_map_id (cap : String → Option Vec) (st : Store) (tickets : List Ticket) :
    ((resolveTickets cap st tickets).1.map (fun r => r.1.id)) =
      tickets.map Ticket.id := by
  have h := congrArg (List.map Ticket.id) (resolveTickets_map_fst cap st tickets)
  rw [List.map_map] at h
  exact h

/-- Under distinct input identifiers, two row occurrences with the same
ticket identifier are the same occurrence. -/
theorem rows_id_inj (cap : String → Option Vec) (st : Store) (tickets : List Ticket)
    (hnd : (tickets.map Ticket.id).Nodup) :
    ∀ r1 ∈ (resolveTickets cap st tickets).1,
      ∀ r2 ∈ (resolveTickets cap st tickets).1, r1.1.id = r2.1.id → r1 = r2 := by
  have hmap : ((resolveTickets cap st tickets).1.map (fun r => r.1.id)).Nodup := by
    rw [rows_map_id]
    exact hnd
  intro r1 h1 r2 h2 heq
  exact List.inj_on_of_nodup_map hmap h1 h2 heq

/-- With distinct row identifiers, the micro-cluster identifier lists and
the noise identifier list are pairwise disjoint. -/
theorem pairwise_disjoint_parts (ms : Nat) (rows : List Row)
    (hinj : ∀ r1 ∈ rows, ∀ r2 ∈ rows, r1.1.id = r2.1.id → r1 = r2) :
    List.Pairwise List.Disjoint
      (((microLeaves ms rows).map (fun lf => lf.members.map (fun t => t.id))) ++
        [(noiseData ms rows).ids_chamados]) := by
  have hproj := microLeaves_map_proj (fun l => l.map (fun t => t.id)) ms rows
  rw [hproj]
  refine List.pairwise_append.mpr ⟨?_, ?_, ?_⟩
  · rw [List.pairwise_map]
    refine (denseVecs_nodup ms rows).imp ?_
    intro v1 v2 hne a ha1 ha2
    simp only [List.mem_map, List.mem_filter] at ha1 ha2
    rcases ha1 with ⟨t1, ⟨r1, ⟨hr1m, hr1v⟩, rfl⟩, hid1⟩
    rcases ha2 with ⟨t2, ⟨r2, ⟨hr2m, hr2v⟩, rfl⟩, hid2⟩
    have hreq : r1 = r2 := hinj r1 hr1m r2 hr2m (hid1.trans hid2.symm)
    have hv1 : r1.2 = some v1 := by simpa using hr1v
    have hv2 : r2.2 = some v2 := by simpa using hr2v
    rw [hreq, hv2] at hv1
    exact hne (Option.some.inj hv1.symm)
  · simp
  · intro x hx y hy
    rcases List.mem_map.mp hx with ⟨v, hv, rfl⟩
    have hy2 : y = (noiseData ms rows).ids_chamados := List.mem_singleton.mp hy
    subst hy2
    intro a ha1 ha2
    simp only [List.mem_map, List.mem_filter] at ha1
    rcases ha1 with ⟨t1, ⟨r1, ⟨hr1m, hr1v⟩, rfl⟩, hid1⟩
    simp only [noiseData, noiseMembers, List.mem_map, List.mem_filter] at ha2
    rcases ha2 with ⟨t2, ⟨r2, ⟨hr2m, hr2d⟩, rfl⟩, hid2⟩
    have hreq : r1 = r2 := hinj r1 hr1m r2 hr2m (hid1.trans hid2.symm)
    have hv1 : r1.2 = some v := by simpa using hr1v
    have hd : isDense ms rows r1 = true := by
      rw [isDense, hv1]
      simpa using hv
    rw [hreq] at hd
    simp [hd] at hr2d

/-- Under distinct input identifiers no ticket identifier occurs in two
leaves of the produced tree. -/
theorem allLeafIds_nodup (cfg : Config) (cap : String → Option Vec)
    (summarize : List String → LabelResult) (st : Store) (sistema : String)
    (dias nowTs : Nat) (tickets : List Ticket)
    (hnd : (tickets.map Ticket.id).Nodup) :
    (allLeafIds (runPipeline cfg cap summarize st sistema dias nowTs tickets).1).Nodup := by
  have hrows : ((resolveTickets cap st tickets).1.map (fun r => r.1.id)).Nodup := by
    rw [rows_map_id]
    exact hnd
  rw [allLeafIds, List.nodup_flatten]
  constructor
  · intro l hl
    have hl2 := (allIdLists_perm cfg cap summarize st sistema dias nowTs tickets).mem_iff.mp hl
    have hproj := microLeaves_map_proj (fun l => l.map (fun t => t.id))
      cfg.minClusterSize (resolveTickets cap st tickets).1
    rw [hproj] at hl2
    rcases List.mem_append.mp hl2 with h | h
    · rcases List.mem_map.mp h with ⟨v, _, rfl⟩
      refine List.Nodup.sublist ?_ hrows
      rw [List.map_map]
      exact (List.filter_sublist _).map (fun r : Row => r.1.id)
    · have hx : l = (noiseData cfg.minClusterSize (resolveTickets cap st tickets).1).ids_chamados :=
        List.mem_singleton.mp h
      subst hx
      refine List.Nodup.sublist ?_ hrows
      show (((((resolveTickets cap st tickets).1.filter _).map _)).map _).Sublist _
      rw [List.map_map]
      exact (List.filter_sublist _).map (fun r : Row => r.1.id)
  · exact ((allIdLists_perm cfg cap summarize st sistema dias nowTs tickets).pairwise_iff
      (fun h => List.Disjoint.symm h)).mpr
      (pairwise_disjoint_parts cfg.minClusterSize (resolveTickets cap st tickets).1
        (rows_id_inj cap st tickets hnd))

/-- Under distinct input identifiers the consistency gate accepts every run
of the model pipeline. -/
theorem checkConsistency_run (cfg : Config) (cap : String → Option Vec)
    (summarize : List String → LabelResult) (st : Store) (sistema : String)
    (dias nowTs : Nat) (tickets : List Ticket)
    (hnd : (tickets.map Ticket.id).Nodup) :
    checkConsistency (runPipeline cfg cap summarize st sistema dias nowTs tickets).1 = true := by
  rw [checkConsistency]
  have h1 : volumeSum (runPipeline cfg cap summarize st sistema dias nowTs tickets).1 =
      (runPipeline cfg cap summarize st sistema dias nowTs tickets).1.metadata.total_chamados := by
    rw [volumeSum_run]
    rfl
  rw [h1]
  simp only [beq_self_eq_true, Bool.true_and]
  exact nodupB_eq_true.mpr
    (allLeafIds_nodup cfg cap summarize st sistema dias nowTs tickets hnd)

/-- Looking a key up in a keyed count list built over distinct keys returns
that key's count, or zero when the key is absent. -/
theorem lookupCount_keyed {β : Type} [DecidableEq β] (keys : List β) (cnt : β → Nat)
    (hnd : keys.Nodup) (s : β) :
    lookupCount (keys.map (fun x => (x, cnt x))) s =
      if s ∈ keys then cnt s else 0 := by
  induction keys with
  | nil => simp [lookupCount]
  | cons k ks ih =>
    have hkn : k ∉ ks := (List.nodup_cons.mp hnd).1
    have hnd2 : ks.Nodup := (List.nodup_cons.mp hnd).2
    by_cases hks : k = s
    · subst hks
      have h2 := ih hnd2
      rw [lookupCount] at h2 ⊢
      simp only [List.map_cons, List.filter_cons]
      rw [if_pos (by simp)]
      simp [h2, hkn]
    · have h2 := ih hnd2
      rw [lookupCount] at h2 ⊢
      simp only [List.map_cons, List.filter_cons]
      rw [if_neg (by simp [hks])]
      rw [h2]
      by_cases hs : s ∈ ks
      · rw [if_pos hs, if_pos (List.mem_cons_of_mem k hs)]
      · rw [if_neg hs, if_neg ?_]
        intro hmem
        rcases List.mem_cons.mp hmem with h | h
        · exact hks h.symm
        · exact hs h

/-- The breakdown produced by `countByStr` counts exactly the member tickets
whose field has the looked-up value. -/
theorem lookupCount_countByStr (f : Ticket → String) (ms : List Ticket) (s : String) :
    lookupCount (countByStr f ms) s = ms.countP (fun t => f t = s) := by
  rw [countByStr, lookupCount_keyed _ _ (List.nodup_dedup _)]
  by_cases h : s ∈ (ms.map f).dedup
  · simp [h]
  · rw [if_neg h]
    symm
    rw [List.countP_eq_zero]
    intro t ht hts
    have hfs : f t = s := by simpa using hts
    exact h (List.mem_dedup.mpr (List.mem_map.mpr ⟨t, ht, hfs⟩))

/-- The breakdown produced by `countByNat` counts exactly the member tickets
whose bucket has the looked-up value. -/
theorem lookupCount_countByNat (f : Ticket → Nat) (ms : List Ticket) (n : Nat) :
    lookupCount (countByNat f ms) n = ms.countP (fun t => f t = n) := by
  rw [countByNat, lookupCount_keyed _ _ (List.nodup_dedup _)]
  by_cases h : n ∈ (ms.map f).dedup
  · simp [h]
  · rw [if_neg h]
    symm
    rw [List.countP_eq_zero]
    intro t ht hts
    have hfn : f t = n := by simpa using hts
    exact h (List.mem_dedup.mpr (List.mem_map.mpr ⟨t, ht, hfn⟩))

/-- A string breakdown over concatenated member sets is the pointwise sum of
the per-set breakdowns. -/
theorem lookupCount_countByStr_flatten (f : Ticket → String)
    (gs : List (List Ticket)) (s : String) :
    lookupCount (countByStr f gs.flatten) s =
      (gs.map (fun ms => lookupCount (countByStr f ms) s)).sum := by
  rw [lookupCount_countByStr, List.countP_flatten]
  congr 1
  apply List.map_congr_left
  intro ms _
  exact (lookupCount_countByStr f ms s).symm

/-- A bucket breakdown over concatenated member sets is the pointwise sum of
the per-set breakdowns. -/
theorem lookupCount_countByNat_flatten (f : Ticket → Nat)
    (gs : List (List Ticket)) (n : Nat) :
    lookupCount (countByNat f gs.flatten) n =
      (gs.map (fun ms => lookupCount (countByNat f ms) n)).sum := by
  rw [lookupCount_countByNat, List.countP_flatten]
  congr 1
  apply List.map_congr_left
  intro ms _
  exact (lookupCount_countByNat f ms n).symm

/-- What a materialized parent says about its children: the children are the
output data of the parent's macro-group. -/
theorem topOfGroup_parent_subs (summarize : List String → LabelResult)
    (g : List Leaf) (d : NodeData) (subs : List NodeData)
    (heq : topOfGroup summarize g = TopNode.parentN d subs) :
    subs = g.map (leafData summarize) := by
  match g with
  | [] =>
    simp only [topOfGroup] at heq
    exact (TopNode.parentN.inj heq).2.symm
  | [lf] =>
    simp only [topOfGroup] at heq
    simp at heq
  | a :: b :: t =>
    simp only [topOfGroup] at heq
    exact (TopNode.parentN.inj heq).2.symm

/-- What a materialized parent says about itself: its metrics are computed
over the concatenated member sets of its macro-group. -/
theorem topOfGroup_parent_data (summarize : List String → LabelResult)
    (g : List Leaf) (d : NodeData) (subs : List NodeData)
    (heq : topOfGroup summarize g = TopNode.parentN d subs) :
    d.metricas = computeMetricas ((g.map (fun lf => lf.members)).flatten) := by
  match g with
  | [] =>
    simp only [topOfGroup] at heq
    rw [← (TopNode.parentN.inj heq).1]
  | [lf] =>
    simp only [topOfGroup] at heq
    simp at heq
  | a :: b :: t =>
    simp only [topOfGroup] at heq
    rw [← (TopNode.parentN.inj heq).1]

/-- A parent node of a run carries exactly the sum of its children's
volumes. -/
theorem parent_volume_eq (cfg : Config) (cap : String → Option Vec)
    (summarize : List String → LabelResult) (st : Store) (sistema : String)
    (dias nowTs : Nat) (tickets : List Ticket) :
    ∀ d subs, TopNode.parentN d subs ∈
        (runPipeline cfg cap summarize st sistema dias nowTs tickets).1.clusters →
      d.metricas.volume = (subs.map (fun s => s.metricas.volume)).sum := by
  intro d subs hmem
  rw [runPipeline_clusters] at hmem
  rcases List.mem_append.mp hmem with h | h
  · rw [buildTop] at h
    rcases List.mem_map.mp h with ⟨g, _, heq⟩
    have hsubs := topOfGroup_parent_subs summarize g d subs heq
    have hvol := volume_topOfGroup summarize g
    rw [heq] at hvol
    have hvol2 : d.metricas.volume = (g.map (fun lf => lf.members.length)).sum := hvol
    rw [hvol2, hsubs, List.map_map]
    rfl
  · have := List.mem_singleton.mp h
    cases this

/-- A parent node of a run carries, component by component, exactly the sum
of its children's metrics: the volume, every service, requester and status
count, and every timeline and day-of-week bucket. -/
theorem parent_metrics_eq (cfg : Config) (cap : String → Option Vec)
    (summarize : List String → LabelResult) (st : Store) (sistema : String)
    (dias nowTs : Nat) (tickets : List Ticket) :
    ∀ d subs, TopNode.parentN d subs ∈
        (runPipeline cfg cap summarize st sistema dias nowTs tickets).1.clusters →
      (d.metricas.volume = (subs.map (fun s => s.metricas.volume)).sum)
      ∧ (∀ s : String,
          lookupCount d.metricas.top_servicos s =
            (subs.map (fun c => lookupCount c.metricas.top_servicos s)).sum
        ∧ lookupCount d.metricas.top_solicitantes s =
            (subs.map (fun c => lookupCount c.metricas.top_solicitantes s)).sum
        ∧ lookupCount d.metricas.top_status s =
            (subs.map (fun c => lookupCount c.metricas.top_status s)).sum)
      ∧ (∀ n : Nat,
          lookupCount d.metricas.timeline n =
            (subs.map (fun c => lookupCount c.metricas.timeline n)).sum
        ∧ lookupCount d.metricas.sazonalidade n =
            (subs.map (fun c => lookupCount c.metricas.sazonalidade n)).sum) := by
  intro d subs hmem
  refine ⟨parent_volume_eq cfg cap summarize st sistema dias nowTs tickets d subs hmem,
    ?_, ?_⟩ <;>
  · rw [runPipeline_clusters] at hmem
    rcases List.mem_append.mp hmem with h | h
    swap
    · exact absurd (List.mem_singleton.mp h) (by simp)
    rw [buildTop] at h
    rcases List.mem_map.mp h with ⟨g, _, heq⟩
    have hsubs := topOfGroup_parent_subs summarize g d subs heq
    have hdata := topOfGroup_parent_data summarize g d subs heq
    subst hsubs
    rw [hdata]
    first
    | exact fun s =>
        ⟨by
          show lookupCount (countByStr (fun t => t.servico)
            ((g.map (fun lf => lf.members)).flatten)) s = _
          rw [lookupCount_countByStr_flatten, List.map_map, List.map_map]
          rfl,
        by
          show lookupCount (countByStr (fun t => t.solicitante)
            ((g.map (fun lf => lf.members)).flatten)) s = _
          rw [lookupCount_countByStr_flatten, List.map_map, List.map_map]
          rfl,
        by
          show lookupCount (countByStr (fun t => t.status)
            ((g.map (fun lf => lf.members)).flatten)) s = _
          rw [lookupCount_countByStr_flatten, List.map_map, List.map_map]
          rfl⟩
    | exact fun n =>
        ⟨by
          show lookupCount (countByNat (fun t => t.mes)
            ((g.map (fun lf => lf.members)).flatten)) n = _
          rw [lookupCount_countByNat_flatten, List.map_map, List.map_map]
          rfl,
        by
          show lookupCount (countByNat (fun t => t.dia_semana)
            ((g.map (fun lf => lf.members)).flatten)) n = _
          rw [lookupCount_countByNat_flatten, List.map_map, List.map_map]
          rfl⟩

/-- Every macro-group is inhabited: its key came from one of its leaves. -/
theorem macroGroups_ne_nil (macroKey : Vec → Nat) (leaves : List Leaf) :
    ∀ g ∈ macroGroups macroKey leaves, g ≠ [] := by
  intro g hg
  rw [macroGroups] at hg
  rcases List.mem_map.mp hg with ⟨k, hk, rfl⟩
  have hk2 := List.mem_dedup.mp hk
  rcases List.mem_map.mp hk2 with ⟨lf, hlf, rfl⟩
  have hmem : lf ∈ leaves.filter (fun l2 => leafKey macroKey l2 = leafKey macroKey lf) := by
    rw [List.mem_filter]
    exact ⟨hlf, by simp⟩
  exact List.ne_nil_of_mem hmem

end Pipeline

/-- C1: for every pipeline run, the sum of the `volume` metric over all
top-level nodes of the produced AnalysisResult, including the reserved noise
node, equals the total number of tickets in the input window (metadata
total_chamados). -/
theorem claim_C1_volume_accounting (cfg : Pipeline.Config)
    (cap : String → Option Pipeline.Vec)
    (summarize : List String → Pipeline.LabelResult) (st : Pipeline.Store)
    (sistema : String) (dias nowTs : Nat) (tickets : List Pipeline.Ticket) :
    Pipeline.volumeSum
        (Pipeline.runPipeline cfg cap summarize st sistema dias nowTs tickets).1 =
      (Pipeline.runPipeline cfg cap summarize st sistema dias nowTs
        tickets).1.metadata.total_chamados ∧
    (Pipeline.runPipeline cfg cap summarize st sistema dias nowTs
        tickets).1.metadata.total_chamados = tickets.length :=
  ⟨by rw [Pipeline.volumeSum_run]; rfl, rfl⟩

/-- C2: for every pipeline run over tickets with distinct identifiers, the
leaves of the output tree carry pairwise disjoint member identifier lists
(no ticket identifier appears in two leaves), and every parent's metrics are
the sum of its descendant leaves' metrics with no double counting: the
volume, every service, requester and status count, and every timeline and
day-of-week bucket. -/
theorem claim_C2_leaf_disjointness (cfg : Pipeline.Config)
    (cap : String → Option Pipeline.Vec)
    (summarize : List String → Pipeline.LabelResult) (st : Pipeline.Store)
    (sistema : String) (dias nowTs : Nat) (tickets : List Pipeline.Ticket)
    (hnd : (tickets.map Pipeline.Ticket.id).Nodup) :
    List.Pairwise List.Disjoint
      (Pipeline.allIdLists
        (Pipeline.runPipeline cfg cap summarize st sistema dias nowTs tickets).1) ∧
    ∀ d subs, Pipeline.TopNode.parentN d subs ∈
        (Pipeline.runPipeline cfg cap summarize st sistema dias nowTs tickets).1.clusters →
      (d.metricas.volume = (subs.map (fun s => s.metricas.volume)).sum)
      ∧ (∀ s : String,
          Pipeline.lookupCount d.metricas.top_servicos s =
            (subs.map (fun c => Pipeline.lookupCount c.metricas.top_servicos s)).sum
        ∧ Pipeline.lookupCount d.metricas.top_solicitantes s =
            (subs.map (fun c => Pipeline.lookupCount c.metricas.top_solicitantes s)).sum
        ∧ Pipeline.lookupCount d.metricas.top_status s =
            (subs.map (fun c => Pipeline.lookupCount c.metricas.top_status s)).sum)
      ∧ (∀ n : Nat,
          Pipeline.lookupCount d.metricas.timeline n =
            (subs.map (fun c => Pipeline.lookupCount c.metricas.timeline n)).sum
        ∧ Pipeline.lookupCount d.metricas.sazonalidade n =
            (subs.map (fun c => Pipeline.lookupCount c.metricas.sazonalidade n)).sum) :=
  ⟨((Pipeline.allIdLists_perm cfg cap summarize st sistema dias nowTs tickets).pairwise_iff
      (fun h => List.Disjoint.symm h)).mpr
      (Pipeline.pairwise_disjoint_parts cfg.minClusterSize _
        (Pipeline.rows_id_inj cap st tickets hnd)),
    Pipeline.parent_metrics_eq cfg cap summarize st sistema dias nowTs tickets⟩

/-- C3: no node of the output tree has exactly one child — a macro-group of
size one is flattened into its single child — and every node is either a
leaf (no children) or a parent (at least two children, no direct ticket
identifiers). -/
theorem claim_C3_flattening (cfg : Pipeline.Config)
    (cap : String → Option Pipeline.Vec)
    (summarize : List String → Pipeline.LabelResult) (st : Pipeline.Store)
    (sistema : String) (dias nowTs : Nat) (tickets : List Pipeline.Ticket) :
    ∀ n ∈ (Pipeline.runPipeline cfg cap summarize st sistema dias nowTs tickets).1.clusters,
      n.subs.length ≠ 1 ∧
      (n.isParentN = true → n.data.ids_chamados = [] ∧ 2 ≤ n.subs.length) ∧
      (n.isParentN = false → n.subs = []) := by
  intro n hn
  rw [Pipeline.runPipeline_clusters] at hn
  rcases List.mem_append.mp hn with h | h
  · rw [Pipeline.buildTop] at h
    rcases List.mem_map.mp h with ⟨g, hg, rfl⟩
    have hne := Pipeline.macroGroups_ne_nil cfg.macroKey _ g hg
    match g, hne with
    | [lf], _ =>
      refine ⟨?_, ?_, ?_⟩ <;>
        simp [Pipeline.topOfGroup, Pipeline.TopNode.subs, Pipeline.TopNode.isParentN]
    | a :: b :: t, _ =>
      refine ⟨?_, ?_, ?_⟩ <;>
        simp [Pipeline.topOfGroup, Pipeline.TopNode.subs, Pipeline.TopNode.isParentN,
          Pipeline.TopNode.data]
  · have hx := List.mem_singleton.mp h
    subst hx
    refine ⟨?_, ?_, ?_⟩ <;>
      simp [Pipeline.TopNode.subs, Pipeline.TopNode.isParentN]

/-- C4: a pipeline run is a pure function of the ticket set, the cache state
and the configuration — two runs differing only in ambient state (here the
generation timestamp) produce identical cluster trees, identical final
stores and identical call counts; and identical cleaned text always yields
the identical fingerprint. -/
theorem claim_C4_determinism (cfg : Pipeline.Config)
    (cap : String → Option Pipeline.Vec)
    (summarize : List String → Pipeline.LabelResult) (st : Pipeline.Store)
    (sistema : String) (dias now1 now2 : Nat) (tickets : List Pipeline.Ticket) :
    ((Pipeline.runPipeline cfg cap summarize st sistema dias now1 tickets).1.clusters =
      (Pipeline.runPipeline cfg cap summarize st sistema dias now2 tickets).1.clusters)
  ∧ ((Pipeline.runPipeline cfg cap summarize st sistema dias now1 tickets).2 =
      (Pipeline.runPipeline cfg cap summarize st sistema dias now2 tickets).2)
  ∧ (∀ t1 t2 : Pipeline.Ticket, Pipeline.textoLimpo t1 = Pipeline.textoLimpo t2 →
      Pipeline.ticketFp t1 = Pipeline.ticketFp t2) :=
  ⟨rfl, rfl, fun _ _ h => congrArg Pipeline.fingerprint h⟩

/-- C5: resolving a fingerprint against the cache makes zero external calls
on a hit; on a miss it makes exactly one call, stores the vector under the
fingerprint, and a second resolution against the updated store is a hit with
zero further calls (so one call total across two runs); distinct store keys
are preserved, so the store never maps one fingerprint to two vectors. -/
theorem claim_C5_cache_single_call (cap : String → Option Pipeline.Vec)
    (st : Pipeline.Store) (texto : String) (v w : Pipeline.Vec) :
    (Pipeline.lookupFp st (Pipeline.fingerprint texto) = some w →
      Pipeline.resolveFingerprint cap st texto = ⟨some w, st, 0⟩)
  ∧ (Pipeline.lookupFp st (Pipeline.fingerprint texto) = none → cap texto = some v →
      Pipeline.resolveFingerprint cap st texto =
        ⟨some v, (Pipeline.fingerprint texto, v) :: st, 1⟩
      ∧ Pipeline.resolveFingerprint cap ((Pipeline.fingerprint texto, v) :: st) texto =
        ⟨some v, (Pipeline.fingerprint texto, v) :: st, 0⟩)
  ∧ (Pipeline.keysNodupB st = true →
      Pipeline.keysNodupB (Pipeline.resolveFingerprint cap st texto).store = true) := by
  refine ⟨?_, ?_, ?_⟩
  · intro h
    simp [Pipeline.resolveFingerprint, h]
  · intro h1 h2
    constructor
    · simp [Pipeline.resolveFingerprint, h1, h2]
    · simp [Pipeline.resolveFingerprint, Pipeline.lookupFp]
  · intro hkn
    rw [Pipeline.resolveFingerprint]
    match hl : Pipeline.lookupFp st (Pipeline.fingerprint texto) with
    | some u => exact hkn
    | none =>
      match cap texto with
      | some u =>
        show Pipeline.keysNodupB ((Pipeline.fingerprint texto, u) :: st) = true
        rw [Pipeline.keysNodupB]
        rw [Pipeline.lookupFp_none_no_key hl]
        simp [hkn]
      | none => exact hkn

/-- C6: tickets with no resolvable vector (embedding failure or empty
cleaned text) are exactly routed to the reserved noise leaf: they receive no
place in any micro-cluster, the noise identifier `-1` is distinct from every
cluster index (all of which are non-negative), and the run still completes
and is persisted. -/
theorem claim_C6_noise_routing (cfg : Pipeline.Config)
    (cap : String → Option Pipeline.Vec)
    (summarize : List String → Pipeline.LabelResult) (st : Pipeline.Store)
    (sistema : String) (dias nowTs : Nat) (tickets : List Pipeline.Ticket)
    (prior : Option Pipeline.AnalysisResult)
    (hnd : (tickets.map Pipeline.Ticket.id).Nodup) :
    (Pipeline.TopNode.leafN
        (Pipeline.noiseData cfg.minClusterSize (Pipeline.resolveTickets cap st tickets).1) ∈
      (Pipeline.runPipeline cfg cap summarize st sistema dias nowTs tickets).1.clusters)
  ∧ (∀ r ∈ (Pipeline.resolveTickets cap st tickets).1, r.2 = none →
      r.1.id ∈ (Pipeline.noiseData cfg.minClusterSize
          (Pipeline.resolveTickets cap st tickets).1).ids_chamados
      ∧ ∀ lf ∈ Pipeline.microLeaves cfg.minClusterSize
          (Pipeline.resolveTickets cap st tickets).1,
          r.1.id ∉ lf.members.map (fun t => t.id))
  ∧ ((Pipeline.noiseData cfg.minClusterSize
        (Pipeline.resolveTickets cap st tickets).1).cluster_id = -1
      ∧ ∀ lf ∈ Pipeline.microLeaves cfg.minClusterSize
          (Pipeline.resolveTickets cap st tickets).1,
          0 ≤ lf.label ∧ lf.label ≠ -1)
  ∧ Pipeline.runAndPersist cfg cap summarize st sistema dias nowTs tickets prior =
      some (Pipeline.runPipeline cfg cap summarize st sistema dias nowTs tickets).1 := by
  refine ⟨?_, ?_, ⟨rfl, ?_⟩, ?_⟩
  · rw [Pipeline.runPipeline_clusters]
    exact List.mem_append.mpr (Or.inr (List.mem_singleton.mpr rfl))
  · intro r hr hnone
    constructor
    · have hnd2 : Pipeline.isDense cfg.minClusterSize
          (Pipeline.resolveTickets cap st tickets).1 r = false := by
        rw [Pipeline.isDense, hnone]
      show r.1.id ∈ (Pipeline.noiseMembers cfg.minClusterSize
          (Pipeline.resolveTickets cap st tickets).1).map (fun t => t.id)
      rw [Pipeline.noiseMembers, List.map_map]
      refine List.mem_map.mpr ⟨r, ?_, rfl⟩
      rw [List.mem_filter]
      exact ⟨hr, by simp [hnd2]⟩
    · intro lf hlf hmem
      rcases List.mem_map.mp hlf with ⟨p, _, rfl⟩
      simp only [List.mem_map, List.mem_filter] at hmem
      rcases hmem with ⟨t2, ⟨r2, ⟨hr2m, hr2v⟩, rfl⟩, hid⟩
      have hreq : r2 = r :=
        Pipeline.rows_id_inj cap st tickets hnd r2 hr2m r hr hid
      have hv2 : r2.2 = some p.2 := by simpa using hr2v
      rw [hreq, hnone] at hv2
      cases hv2
  · intro lf hlf
    rcases List.mem_map.mp hlf with ⟨p, _, rfl⟩
    refine ⟨Int.natCast_nonneg p.1, ?_⟩
    intro hcon
    have h0 : ((p.1 : Int)) = -1 := hcon
    omega
  · rw [Pipeline.runAndPersist, Pipeline.persistStep,
      Pipeline.checkConsistency_run cfg cap summarize st sistema dias nowTs tickets hnd]
    rfl

/-- C7: when the consistency gate rejects a candidate result (volume
mismatch or duplicated ticket assignment), nothing is persisted: the prior
AnalysisResult stays authoritative. -/
theorem claim_C7_consistency_gate (prior : Option Pipeline.AnalysisResult)
    (cand : Pipeline.AnalysisResult)
    (h : Pipeline.checkConsistency cand = false) :
    Pipeline.persistStep prior cand = prior := by
  rw [Pipeline.persistStep, h]
  rfl

/-- C8: when the selected cluster is a macro node (non-empty `sub_clusters`),
the ticket-detail effect returns early — no request is sent to the tickets
batch endpoint and the tickets cache is left unchanged. -/
theorem claim_C8_macro_no_fetch (c : Frontend.Cluster)
    (cache : Frontend.TicketsCache)
    (api : List String → Option (List Frontend.TicketDetail))
    (subs : List Frontend.Cluster) (hsub : c.sub_clusters = some subs)
    (hlen : 0 < subs.length) :
    Frontend.ticketFetchEffect (some c) cache api = (cache, none) := by
  rw [Frontend.ticketFetchEffect, hsub]
  simp [hlen]

/-- C9: the rendered cluster list is a permutation of the loaded top-level
clusters, sorted by the volume metric in non-increasing order; with no
loaded analysis the list is empty.  The embedding is purely functional, so
computing `sortedClusters` cannot mutate the loaded `clusters` list (the
page copies the array before its in-place sort for the same reason). -/
theorem claim_C9_sorted_clusters (d : Frontend.AnaliseData) :
    (Frontend.sortedClusters (some d)).Perm d.clusters
  ∧ List.Sorted Frontend.volGE (Frontend.sortedClusters (some d))
  ∧ Frontend.sortedClusters none = [] :=
  ⟨List.perm_insertionSort Frontend.volGE d.clusters,
    List.sorted_insertionSort Frontend.volGE d.clusters, rfl⟩

/-- C10: every batch request carries the first five (at most) identifiers of
the selected leaf cluster; no request goes out for an empty identifier list
or for a cluster already in the cache; and a successful fetch stores the
response under the cluster identifier, so the cluster is never fetched
again. -/
theorem claim_C10_fetch_bounds (c : Frontend.Cluster)
    (cache : Frontend.TicketsCache)
    (api : List String → Option (List Frontend.TicketDetail)) :
    (∀ ids, (Frontend.ticketFetchEffect (some c) cache api).2 = some ids →
      ids = c.ids_chamados.take 5 ∧ ids.length ≤ 5)
  ∧ (c.ids_chamados = [] →
      (Frontend.ticketFetchEffect (some c) cache api).2 = none)
  ∧ ((Frontend.lookupCache cache c.cluster_id).isSome = true →
      (Frontend.ticketFetchEffect (some c) cache api).2 = none)
  ∧ (∀ ids tds, (Frontend.ticketFetchEffect (some c) cache api).2 = some ids →
      api ids = some tds →
      (Frontend.ticketFetchEffect (some c) cache api).1 =
        (c.cluster_id, tds) :: cache
      ∧ Frontend.lookupCache ((c.cluster_id, tds) :: cache) c.cluster_id = some tds) := by
  have hstep : Frontend.ticketFetchEffect (some c) cache api = (cache, none) ∨
      Frontend.ticketFetchEffect (some c) cache api =
        Frontend.fetchLeafTickets c cache api := by
    rw [Frontend.ticketFetchEffect]
    match c.sub_clusters with
    | none => exact Or.inr rfl
    | some subs =>
      by_cases h : 0 < subs.length
      · simp [h]
      · simp [h]
  have hleaf : ∀ ids, (Frontend.fetchLeafTickets c cache api).2 = some ids →
      ids = c.ids_chamados.take 5 ∧ ids.length ≤ 5 := by
    intro ids hids
    rw [Frontend.fetchLeafTickets] at hids
    by_cases h1 : (Frontend.lookupCache cache c.cluster_id).isSome
    · simp [h1] at hids
    · simp only [h1] at hids
      by_cases h2 : (c.ids_chamados.take 5).length = 0
      · simp [h2] at hids
      · simp only [h2] at hids
        have hids2 : ids = c.ids_chamados.take 5 := by
          match hapi : api (c.ids_chamados.take 5) with
          | some tds => rw [hapi] at hids; simp at hids; exact hids.symm
          | none => rw [hapi] at hids; simp at hids; exact hids.symm
        refine ⟨hids2, ?_⟩
        rw [hids2, List.length_take]
        exact Nat.min_le_left 5 _
  refine ⟨?_, ?_, ?_, ?_⟩
  · intro ids hids
    rcases hstep with h | h
    · rw [h] at hids
      cases hids
    · rw [h] at hids
      exact hleaf ids hids
  · intro hempty
    rcases hstep with h | h
    · rw [h]
    · rw [h, Frontend.fetchLeafTickets]
      by_cases h1 : (Frontend.lookupCache cache c.cluster_id).isSome
      · simp [h1]
      · simp [h1, hempty]
  · intro hhit
    rcases hstep with h | h
    · rw [h]
    · rw [h, Frontend.fetchLeafTickets]
      simp [hhit]
  · intro ids tds hids hapi
    rcases hstep with h | h
    · rw [h] at hids
      cases hids
    · have hids2 := (hleaf ids (h ▸ hids)).1
      subst hids2
      rw [h] at hids ⊢
      rw [Frontend.fetchLeafTickets] at hids ⊢
      by_cases h1 : (Frontend.lookupCache cache c.cluster_id).isSome
      · simp [h1] at hids
      · simp only [h1] at hids ⊢
        by_cases h2 : (c.ids_chamados.take 5).length = 0
        · simp [h2] at hids
        · simp only [h2] at hids ⊢
          rw [hapi]
          simp [Frontend.lookupCache]

/-! ## Concrete instances used by the witnesses -/

/-- A sample ticket with fixed requester/status/time metadata. -/
def exTicket (i : Nat) (sis srv tit des : String) : Pipeline.Ticket :=
  { id := i, sistema := sis, servico := srv, solicitante := "ana",
    status := "aberto", mes := 1, dia_semana := 2, titulo := tit, descricao := des }

/-- First of two tickets with identical cleaned text (cluster A). -/
def exTicketA1 : Pipeline.Ticket :=
  exTicket 1 "LOGIX" "login" "erro" "timeout de login"

/-- Second cluster-A ticket: markup and doubled whitespace clean away. -/
def exTicketA2 : Pipeline.Ticket :=
  exTicket 2 "LOGIX" "login" "erro" "timeout   de <b>login</b>"

/-- First cluster-B ticket. -/
def exTicketB1 : Pipeline.Ticket :=
  exTicket 3 "LOGIX" "rede" "queda" "falha total"

/-- Second cluster-B ticket. -/
def exTicketB2 : Pipeline.Ticket :=
  exTicket 4 "LOGIX" "rede" "queda" "falha  total"

/-- A ticket whose embedding call fails. -/
def exTicketF : Pipeline.Ticket :=
  exTicket 5 "LOGIX" "impressao" "spool" "trava"

/-- A ticket whose cleaned text is empty. -/
def exTicketE : Pipeline.Ticket :=
  exTicket 6 "" "" "" " <b> </b> "

/-- The sample window. -/
def exTickets : List Pipeline.Ticket :=
  [exTicketA1, exTicketA2, exTicketB1, exTicketB2, exTicketF, exTicketE]

/-- A deterministic embedding capability: both cluster texts get their own
vector, the spool text fails, anything else embeds to its length. -/
def exCap : String → Option Pipeline.Vec := fun s =>
  if s = "LOGIX login erro timeout de login" then some [1, 2]
  else if s = "LOGIX rede queda falha total" then some [3, 4]
  else if s = "LOGIX impressao spool trava" then none
  else some [(s.length : Int)]

/-- A labeling capability answering with a fixed structured label. -/
def exSumm : List String → Pipeline.LabelResult :=
  fun _ => .labeled "Grupo" "Descricao" []

/-- Sample configuration: minimum group size two, and a constant merge key
so that the two micro-clusters join under one parent. -/
def exCfg : Pipeline.Config := ⟨2, fun _ => 0⟩

/-- The sample run (empty prior cache). -/
def exRun : Pipeline.AnalysisResult × Pipeline.Store × Nat :=
  Pipeline.runPipeline exCfg exCap exSumm [] "LOGIX" 180 7 exTickets

/-- The first top-level node of the sample run (the merged parent). -/
def exParent : Pipeline.TopNode :=
  exRun.1.clusters.headD
    (Pipeline.TopNode.leafN ⟨0, "", [], Pipeline.computeMetricas []⟩)

/-- Data block of the sample parent node. -/
def exParentData : Pipeline.NodeData := exParent.data

/-- Children of the sample parent node. -/
def exParentSubs : List Pipeline.NodeData := exParent.subs

/-- The failing-embedding row of the sample run. -/
def exRowF : Pipeline.Row := (exTicketF, none)

/-- An inconsistent candidate result (volume sum 0, claimed total 5). -/
def exBad : Pipeline.AnalysisResult :=
  ⟨{ sistema := "X", data_analise := 0, periodo_dias := 0,
     total_chamados := 5, total_grupos := 0, ruido := 0 }, []⟩

/-- Sample metrics for the viewer clusters. -/
def exMetr : Frontend.Metricas :=
  ⟨10, [("servico", 5)], none, [("ana", 3)], none, [], none⟩

/-- A sample sub-cluster of the viewer. -/
def exSub : Frontend.Cluster :=
  .mk 2 "Sub" "d" none ["x1"] exMetr none

/-- A sample macro cluster (one sub-cluster). -/
def exMacro : Frontend.Cluster :=
  .mk 1 "Macro" "d" none [] exMetr (some [exSub])

/-- A sample leaf cluster with seven ticket identifiers. -/
def exLeafC : Frontend.Cluster :=
  .mk 3 "Leaf" "d" none ["a", "b", "c", "d", "e", "f", "g"] exMetr none

/-- A sample loaded ticket detail. -/
def exTd : Frontend.TicketDetail :=
  ⟨"a", "t", "ana", "2024-01-01", "aberto", "texto"⟩

/-- A batch endpoint answering every request with one detail. -/
def exApi : List String → Option (List Frontend.TicketDetail) :=
  fun _ => some [exTd]

/-- Witness for C2 at the sample run: the leaf identifier lists are pairwise
disjoint, and the merged parent's volume, its count for the "login" service
and its month-1 timeline bucket each equal the sum over its two children. -/
theorem claim_C2_witness :
    List.Pairwise List.Disjoint (Pipeline.allIdLists exRun.1) ∧
    exParentData.metricas.volume =
      (exParentSubs.map (fun s => s.metricas.volume)).sum ∧
    Pipeline.lookupCount exParentData.metricas.top_servicos "login" =
      (exParentSubs.map
        (fun c => Pipeline.lookupCount c.metricas.top_servicos "login")).sum ∧
    Pipeline.lookupCount exParentData.metricas.timeline 1 =
      (exParentSubs.map (fun c => Pipeline.lookupCount c.metricas.timeline 1)).sum :=
  ⟨(claim_C2_leaf_disjointness exCfg exCap exSumm [] "LOGIX" 180 7 exTickets
      (by decide)).1,
    ((claim_C2_leaf_disjointness exCfg exCap exSumm [] "LOGIX" 180 7 exTickets
      (by decide)).2 exParentData exParentSubs (by decide)).1,
    (((claim_C2_leaf_disjointness exCfg exCap exSumm [] "LOGIX" 180 7 exTickets
      (by decide)).2 exParentData exParentSubs (by decide)).2.1 "login").1,
    (((claim_C2_leaf_disjointness exCfg exCap exSumm [] "LOGIX" 180 7 exTickets
      (by decide)).2 exParentData exParentSubs (by decide)).2.2 1).1⟩

/-- Witness for C3 at the sample run, checked on the merged parent node. -/
theorem claim_C3_witness :
    exParent.subs.length ≠ 1 ∧
    (exParent.isParentN = true →
      exParent.data.ids_chamados = [] ∧ 2 ≤ exParent.subs.length) ∧
    (exParent.isParentN = false → exParent.subs = []) :=
  claim_C3_flattening exCfg exCap exSumm [] "LOGIX" 180 7 exTickets exParent
    (by decide)

/-- Witness for C4 at the sample run: two runs at different timestamps agree
on the clusters, and the two cluster-A tickets share their fingerprint. -/
theorem claim_C4_witness :
    ((Pipeline.runPipeline exCfg exCap exSumm [] "LOGIX" 180 1 exTickets).1.clusters =
      (Pipeline.runPipeline exCfg exCap exSumm [] "LOGIX" 180 2 exTickets).1.clusters)
  ∧ Pipeline.ticketFp exTicketA1 = Pipeline.ticketFp exTicketA2 :=
  ⟨(claim_C4_determinism exCfg exCap exSumm [] "LOGIX" 180 1 2 exTickets).1,
    (claim_C4_determinism exCfg exCap exSumm [] "LOGIX" 180 1 2 exTickets).2.2
      exTicketA1 exTicketA2 (by decide)⟩

/-- Witness for C5: resolving a fresh text costs one call and stores the
vector; resolving again against the updated store is a free hit; the store
keys stay distinct. -/
theorem claim_C5_witness :
    Pipeline.resolveFingerprint exCap [] "ab" =
      ⟨some [2], [(Pipeline.fingerprint "ab", [2])], 1⟩
  ∧ Pipeline.resolveFingerprint exCap [(Pipeline.fingerprint "ab", [2])] "ab" =
      ⟨some [2], [(Pipeline.fingerprint "ab", [2])], 0⟩
  ∧ Pipeline.keysNodupB (Pipeline.resolveFingerprint exCap [] "ab").store = true :=
  ⟨((claim_C5_cache_single_call exCap [] "ab" [2] [2]).2.1 rfl (by decide)).1,
    ((claim_C5_cache_single_call exCap [] "ab" [2] [2]).2.1 rfl (by decide)).2,
    (claim_C5_cache_single_call exCap [] "ab" [2] [2]).2.2 rfl⟩

/-- Witness for C6 at the sample run: the embedding-failed ticket lands in
the noise leaf and the run is persisted. -/
theorem claim_C6_witness :
    exRowF.1.id ∈ (Pipeline.noiseData exCfg.minClusterSize
        (Pipeline.resolveTickets exCap [] exTickets).1).ids_chamados
  ∧ Pipeline.runAndPersist exCfg exCap exSumm [] "LOGIX" 180 7 exTickets none =
      some (Pipeline.runPipeline exCfg exCap exSumm [] "LOGIX" 180 7 exTickets).1 :=
  ⟨((claim_C6_noise_routing exCfg exCap exSumm [] "LOGIX" 180 7 exTickets none
      (by decide)).2.1 exRowF (by decide) rfl).1,
    (claim_C6_noise_routing exCfg exCap exSumm [] "LOGIX" 180 7 exTickets none
      (by decide)).2.2.2⟩

/-- Witness for C7: an inconsistent candidate is not persisted. -/
theorem claim_C7_witness : Pipeline.persistStep none exBad = none :=
  claim_C7_consistency_gate none exBad (by decide)

/-- Witness for C8: selecting the sample macro cluster fetches nothing. -/
theorem claim_C8_witness :
    Frontend.ticketFetchEffect (some exMacro) [] exApi = ([], none) :=
  claim_C8_macro_no_fetch exMacro [] exApi [exSub] rfl (by decide)

/-- Witness for C10: the sample leaf cluster requests exactly its first five
identifiers, and the successful response is cached under its identifier. -/
theorem claim_C10_witness :
    (["a", "b", "c", "d", "e"] = exLeafC.ids_chamados.take 5 ∧
      (["a", "b", "c", "d", "e"] : List String).length ≤ 5)
  ∧ ((Frontend.ticketFetchEffect (some exLeafC) [] exApi).1 =
      (exLeafC.cluster_id, [exTd]) :: []
    ∧ Frontend.lookupCache ((exLeafC.cluster_id, [exTd]) :: [])
        exLeafC.cluster_id = some [exTd]) :=
  ⟨(claim_C10_fetch_bounds exLeafC [] exApi).1 ["a", "b", "c", "d", "e"] (by decide),
    (claim_C10_fetch_bounds exLeafC [] exApi).2.2.2 ["a", "b", "c", "d", "e"] [exTd]
      (by decide) rfl⟩
